import Mathlib

/-!
Verification development for the MAPL automatic code generator
(`src/Apps/MAPL_GridCompSpecs_ACG.py`).  The Python program is shallowly
embedded: each Python helper becomes an executable Lean definition, Python
`None` / strings / ints stored in option-value dictionaries become the
`Value` type, exceptions become the `Err` type inside `Except`, and the
mutable emission indent becomes explicit state passing.
-/

namespace ACG

/-! ### String helpers modelling the Python `str` methods used by the source
(on the ASCII strings the generator manipulates). -/

/-- ASCII uppercase of one character, as Python `str.upper` does per char. -/
def charUpper (c : Char) : Char :=
  if 'a' ≤ c ∧ c ≤ 'z' then Char.ofNat (c.toNat - 32) else c

/-- ASCII lowercase of one character, as Python `str.lower` does per char. -/
def charLower (c : Char) : Char :=
  if 'A' ≤ c ∧ c ≤ 'Z' then Char.ofNat (c.toNat + 32) else c

/-- Python `s.upper()` on ASCII strings. -/
def strUpper (s : String) : String := ⟨s.data.map charUpper⟩

/-- Python `s.lower()` on ASCII strings. -/
def strLower (s : String) : String := ⟨s.data.map charLower⟩

/-- Python whitespace characters stripped by `str.strip()` (ASCII range). -/
def isPySpace (c : Char) : Bool :=
  (c == ' ') || (c == '\t') || (c == '\n') || (c == '\r') || (c == '\x0b') || (c == '\x0c')

/-- Strip characters satisfying `p` from both ends of a character list. -/
def stripWhile (p : Char → Bool) (l : List Char) : List Char :=
  ((l.dropWhile p).reverse.dropWhile p).reverse

/-- Python `s.strip()` (whitespace at both ends removed). -/
def pyStrip (s : String) : String := ⟨stripWhile isPySpace s.data⟩

/-- Python `s.strip(chars)`: remove characters of `cs` from both ends. -/
def pyStripChars (cs : List Char) (s : String) : String :=
  ⟨stripWhile (cs.contains ·) s.data⟩

/-- Replace every occurrence of the character `c` by `repl`, as the source
uses Python `str.replace` with a one-character pattern. -/
def replaceChar (c : Char) (repl : List Char) : List Char → List Char
  | [] => []
  | x :: xs => if x = c then repl ++ replaceChar c repl xs else x :: replaceChar c repl xs

/-- String wrapper for `replaceChar`, modelling `s.replace(c, repl)`. -/
def pyReplaceChar (c : Char) (repl : String) (s : String) : String :=
  ⟨replaceChar c repl.data s.data⟩

/-- Python `s.split(',')` on the underlying character list: the result is the
comma-separated tokens, and splitting an empty string yields one empty token. -/
def splitCommas : List Char → List (List Char)
  | [] => [[]]
  | c :: rest =>
    match splitCommas rest with
    | [] => [[]]
    | t :: ts => if c = ',' then [] :: t :: ts else (c :: t) :: ts

/-- Python `sep.join(parts)`. -/
def joinWith (sep : String) : List String → String
  | [] => ""
  | [x] => x
  | x :: y :: xs => x ++ sep ++ joinWith sep (y :: xs)

/-- Python `s.capitalize()`: first character uppercased, the rest lowercased. -/
def pyCapitalize (s : String) : String :=
  match s.data with
  | [] => ""
  | c :: rest => ⟨charUpper c :: rest.map charLower⟩

/-! ### Values and errors -/

/-- A value stored in an option-value dictionary of the generator: Python
`None`, a string, or an int (only the derived rank is an int). -/
inductive Value where
  | vnone : Value
  | vstr : String → Value
  | vnat : Nat → Value
deriving DecidableEq

/-- Python truthiness of a `Value` (`None` and `""` and `0` are falsy). -/
def Value.truthy : Value → Bool
  | .vnone => false
  | .vstr s => !s.data.isEmpty
  | .vnat n => n != 0

/-- Python `str(v)` for a `Value` (`str(None)` is the string `"None"`).
Where the source concatenates a dictionary value into generated text it is
always a string in practice; a non-string would raise `TypeError` in Python,
and the theorems below restrict to string-valued fields accordingly. -/
def Value.pyStr : Value → String
  | .vnone => "None"
  | .vstr s => s
  | .vnat n => toString n

/-- The exceptions the embedded code can raise: `KeyError` from a failed
dictionary lookup, `RuntimeError` (missing mandatory option, rule violation),
and `ValueError` (bad logical token, bad joiner). -/
inductive Err where
  | keyError : String → Err
  | runtimeError : String → Err
  | valueError : String → Err
deriving DecidableEq

/-! ### Emit functions (the small lambdas at the top of the source) -/

/-- `identity_emit`: return the value unchanged. -/
def identity_emit (value : String) : Value := .vstr value

/-- `string_emit`: wrap a truthy (non-empty) value in single quotes,
empty input yields `None`. -/
def string_emit (value : String) : Value :=
  if value.isEmpty then .vnone else .vstr ("'" ++ value ++ "'")

/-- `array_emit`: wrap a truthy value in square brackets, else `None`. -/
def array_emit (value : String) : Value :=
  if value.isEmpty then .vnone else .vstr ("[" ++ value ++ "]")

/-- `mangle_name`: replace the wildcard `*` by the component-name
interpolation and quote the result; empty input yields `None`. -/
def mangle_name (name : String) : Value :=
  if name.isEmpty then .vnone
  else string_emit (pyReplaceChar '*' "'//trim(comp_name)//'" name)

/-- `make_internal_name`: strip the wildcard `*`; empty input yields `None`. -/
def make_internal_name (name : String) : Value :=
  if name.isEmpty then .vnone else .vstr (pyReplaceChar '*' "" name)

/-- First value bound to `key` in an association list of strings. -/
def lookupStr {α : Type} (table : List (String × α)) (key : String) : Option α :=
  match table with
  | [] => none
  | (k, v) :: rest => if k = key then some v else lookupStr rest key

/-- `make_entry_emit dictionary`: look the key up, unknown keys yield `None`. -/
def make_entry_emit (dictionary : List (String × String)) (key : String) : Value :=
  match lookupStr dictionary key with
  | some v => .vstr v
  | none => .vnone

/-- The `DIMS_OPTIONS` constants: (entry, rank, alias). -/
def DIMS_OPTIONS : List (String × Nat × String) :=
  [("MAPL_DimsVertOnly", 1, "z"), ("MAPL_DimsHorzOnly", 2, "xy"), ("MAPL_DimsHorzVert", 3, "xyz")]

/-- `DIMS_EMIT`: alias (short code) to long-form dims token. -/
def DIMS_EMIT : String → Value :=
  make_entry_emit (DIMS_OPTIONS.map (fun e => (e.2.2, e.1)))

/-- `RANKS`: long-form dims token to base rank. -/
def RANKS : List (String × Nat) := DIMS_OPTIONS.map (fun e => (e.1, e.2.1))

/-- `VLOCATION_EMIT` lookup table. -/
def VLOCATION_EMIT : String → Value :=
  make_entry_emit
    [("C", "MAPL_VlocationCenter"), ("E", "MAPL_VlocationEdge"), ("N", "MAPL_VlocationNone")]

/-- `RESTART_EMIT` lookup table. -/
def RESTART_EMIT : String → Value :=
  make_entry_emit
    [("OPT", "MAPL_RestartOptional"), ("SKIP", "MAPL_RestartSkip"),
     ("REQ", "MAPL_RestartRequired"), ("BOOT", "MAPL_RestartBoot"),
     ("SKIPI", "MAPL_RestartSkipInitial")]

/-- `ADD2EXPORT_EMIT` lookup table. -/
def ADD2EXPORT_EMIT : String → Value :=
  make_entry_emit [("T", ".true."), ("F", ".false.")]

/-! ### The Option schema (the Python `Option` enum) -/

/-- Canonical members of the `Option` enum in definition order; Python enum
aliases (`NAME`, `VLOC`, ...) collapse onto these canonical members. -/
inductive OptName where
  | SHORT_NAME | LONG_NAME | UNITS | DIMS | VLOCATION | ADD2EXPORT | RESTART
  | UNGRIDDED | FRIENDLYTO | PRECISION | NUM_SUBTILES | AVERAGING_INTERVAL
  | REFRESH_INTERVAL | HALOWIDTH | DEFAULT | FIELD_TYPE | STAGGERING
  | ROTATION | DATATYPE | ATTR_INAMES | ATT_RNAMES | ATTR_IVALUES
  | ATTR_RVALUES | UNGRIDDED_NAME | UNGRIDDED_UNIT | UNGRIDDED_COORDS
  | CONDITION | ALLOC | MANGLED_NAME | INTERNAL_NAME | RANK
deriving DecidableEq

/-- The canonical member name (`option.name` in Python). -/
def OptName.enumName : OptName → String
  | .SHORT_NAME => "SHORT_NAME"
  | .LONG_NAME => "LONG_NAME"
  | .UNITS => "UNITS"
  | .DIMS => "DIMS"
  | .VLOCATION => "VLOCATION"
  | .ADD2EXPORT => "ADD2EXPORT"
  | .RESTART => "RESTART"
  | .UNGRIDDED => "UNGRIDDED"
  | .FRIENDLYTO => "FRIENDLYTO"
  | .PRECISION => "PRECISION"
  | .NUM_SUBTILES => "NUM_SUBTILES"
  | .AVERAGING_INTERVAL => "AVERAGING_INTERVAL"
  | .REFRESH_INTERVAL => "REFRESH_INTERVAL"
  | .HALOWIDTH => "HALOWIDTH"
  | .DEFAULT => "DEFAULT"
  | .FIELD_TYPE => "FIELD_TYPE"
  | .STAGGERING => "STAGGERING"
  | .ROTATION => "ROTATION"
  | .DATATYPE => "DATATYPE"
  | .ATTR_INAMES => "ATTR_INAMES"
  | .ATT_RNAMES => "ATT_RNAMES"
  | .ATTR_IVALUES => "ATTR_IVALUES"
  | .ATTR_RVALUES => "ATTR_RVALUES"
  | .UNGRIDDED_NAME => "UNGRIDDED_NAME"
  | .UNGRIDDED_UNIT => "UNGRIDDED_UNIT"
  | .UNGRIDDED_COORDS => "UNGRIDDED_COORDS"
  | .CONDITION => "CONDITION"
  | .ALLOC => "ALLOC"
  | .MANGLED_NAME => "MANGLED_NAME"
  | .INTERNAL_NAME => "INTERNAL_NAME"
  | .RANK => "RANK"

/-- The `name_key` field of each member (note the source's `num_subtitles`
spelling is kept verbatim). -/
def OptName.name_key : OptName → String
  | .SHORT_NAME => "short_name"
  | .LONG_NAME => "long_name"
  | .UNITS => "units"
  | .DIMS => "dims"
  | .VLOCATION => "vlocation"
  | .ADD2EXPORT => "add2export"
  | .RESTART => "restart"
  | .UNGRIDDED => "ungridded"
  | .FRIENDLYTO => "friendlyto"
  | .PRECISION => "precision"
  | .NUM_SUBTILES => "num_subtitles"
  | .AVERAGING_INTERVAL => "averaging_interval"
  | .REFRESH_INTERVAL => "refresh_interval"
  | .HALOWIDTH => "halowidth"
  | .DEFAULT => "default"
  | .FIELD_TYPE => "field_type"
  | .STAGGERING => "staggering"
  | .ROTATION => "rotation"
  | .DATATYPE => "datatype"
  | .ATTR_INAMES => "attr_inames"
  | .ATT_RNAMES => "att_rnames"
  | .ATTR_IVALUES => "attr_ivalues"
  | .ATTR_RVALUES => "attr_rvalues"
  | .UNGRIDDED_NAME => "ungridded_name"
  | .UNGRIDDED_UNIT => "ungridded_unit"
  | .UNGRIDDED_COORDS => "ungridded_coords"
  | .CONDITION => "condition"
  | .ALLOC => "alloc"
  | .MANGLED_NAME => "mangled_name"
  | .INTERNAL_NAME => "internal_name"
  | .RANK => "rank"

/-- The emission transform of each member (a missing transform, and the
`None` transform of `RANK`, default to `identity_emit`). -/
def OptName.emit : OptName → String → Value
  | .SHORT_NAME => mangle_name
  | .LONG_NAME => string_emit
  | .UNITS => string_emit
  | .DIMS => DIMS_EMIT
  | .VLOCATION => VLOCATION_EMIT
  | .ADD2EXPORT => ADD2EXPORT_EMIT
  | .RESTART => RESTART_EMIT
  | .UNGRIDDED => array_emit
  | .FRIENDLYTO => string_emit
  | .CONDITION => identity_emit
  | .ALLOC => identity_emit
  | .MANGLED_NAME => mangle_name
  | .INTERNAL_NAME => make_internal_name
  | _ => identity_emit

/-- The `mandatory` flag of each member. -/
def OptName.mandatory : OptName → Bool
  | .SHORT_NAME => true
  | .LONG_NAME => true
  | .UNITS => true
  | .DIMS => true
  | _ => false

/-- The `output` flag of each member. -/
def OptName.output : OptName → Bool
  | .CONDITION => false
  | .ALLOC => false
  | .MANGLED_NAME => false
  | .INTERNAL_NAME => false
  | .RANK => false
  | _ => true

/-- The canonical members in Python enum definition order (`list(Option)`). -/
def allOptions : List OptName :=
  [.SHORT_NAME, .LONG_NAME, .UNITS, .DIMS, .VLOCATION, .ADD2EXPORT, .RESTART,
   .UNGRIDDED, .FRIENDLYTO, .PRECISION, .NUM_SUBTILES, .AVERAGING_INTERVAL,
   .REFRESH_INTERVAL, .HALOWIDTH, .DEFAULT, .FIELD_TYPE, .STAGGERING,
   .ROTATION, .DATATYPE, .ATTR_INAMES, .ATT_RNAMES, .ATTR_IVALUES,
   .ATTR_RVALUES, .UNGRIDDED_NAME, .UNGRIDDED_UNIT, .UNGRIDDED_COORDS,
   .CONDITION, .ALLOC, .MANGLED_NAME, .INTERNAL_NAME, .RANK]

/-- `Option.get_mandatory_options()`: the mandatory members in enum order. -/
def get_mandatory_options : List OptName := allOptions.filter (·.mandatory)

/-- The name table of the `Option` enum: every member name and alias (all
spelled uppercase exactly as in the source), each bound to its canonical
member. -/
def aliasTable : List (String × OptName) :=
  [("SHORT_NAME", .SHORT_NAME), ("NAME", .SHORT_NAME),
   ("LONG_NAME", .LONG_NAME), ("LONG NAME", .LONG_NAME),
   ("UNITS", .UNITS), ("DIMS", .DIMS),
   ("VLOCATION", .VLOCATION), ("VLOC", .VLOCATION),
   ("ADD2EXPORT", .ADD2EXPORT), ("ADDEXP", .ADD2EXPORT),
   ("RESTART", .RESTART),
   ("UNGRIDDED", .UNGRIDDED), ("UNGRID", .UNGRIDDED),
   ("FRIENDLYTO", .FRIENDLYTO), ("FRIEND2", .FRIENDLYTO),
   ("PRECISION", .PRECISION), ("PREC", .PRECISION),
   ("NUM_SUBTILES", .NUM_SUBTILES), ("NUMSUBS", .NUM_SUBTILES),
   ("AVERAGING_INTERVAL", .AVERAGING_INTERVAL), ("AVINT", .AVERAGING_INTERVAL),
   ("REFRESH_INTERVAL", .REFRESH_INTERVAL),
   ("HALOWIDTH", .HALOWIDTH), ("DEFAULT", .DEFAULT), ("FIELD_TYPE", .FIELD_TYPE),
   ("STAGGERING", .STAGGERING), ("ROTATION", .ROTATION), ("DATATYPE", .DATATYPE),
   ("ATTR_INAMES", .ATTR_INAMES), ("ATT_RNAMES", .ATT_RNAMES),
   ("ATTR_IVALUES", .ATTR_IVALUES), ("ATTR_RVALUES", .ATTR_RVALUES),
   ("UNGRIDDED_NAME", .UNGRIDDED_NAME), ("UNGRIDDED_UNIT", .UNGRIDDED_UNIT),
   ("UNGRIDDED_COORDS", .UNGRIDDED_COORDS),
   ("CONDITION", .CONDITION), ("COND", .CONDITION),
   ("ALLOC", .ALLOC),
   ("MANGLED_NAME", .MANGLED_NAME), ("INTERNAL_NAME", .INTERNAL_NAME),
   ("RANK", .RANK)]

/-- `Option[column.upper()]` as a total lookup: the schema entry for a raw
column name, `none` when the uppercased name is not registered. -/
def optionOfColumn (column : String) : Option OptName :=
  lookupStr aliasTable (strUpper column)

/-! ### Option-value dictionaries (Python `dict` keyed by `Option`) -/

/-- A digested record: insertion-ordered association list from canonical
option to emitted value, mirroring a Python dict. -/
abbrev SpecRecord := List (OptName × Value)

/-- Python dict assignment `d[k] = v`: replace in place if the key exists
(preserving its position), otherwise append. -/
def dictInsert (k : OptName) (v : Value) : SpecRecord → SpecRecord
  | [] => [(k, v)]
  | (k', v') :: rest => if k' = k then (k, v) :: rest else (k', v') :: dictInsert k v rest

/-- Python dict lookup `d.get(k)` (`none` when absent). -/
def dictFind (k : OptName) : SpecRecord → Option Value
  | [] => none
  | (k', v') :: rest => if k' = k then some v' else dictFind k rest

/-! ### `compute_rank` -/

/-- `compute_rank(dims, ungridded)`: the extra rank is the number of
comma-separated tokens of the bracket-stripped ungridded value when it is
truthy, and `RANKS[dims]` raises `KeyError` for an unrecognized dims value. -/
def compute_rank (dims ungridded : Value) : Except Err Nat :=
  let extra_rank :=
    if ungridded.truthy then
      (splitCommas (pyStripChars [']', '['] ungridded.pyStr).data).length
    else 0
  match dims with
  | .vstr s =>
    match lookupStr RANKS s with
    | some r => .ok (r + extra_rank)
    | none => .error (.keyError s)
  | d => .error (.keyError d.pyStr)

/-! ### The rule engine -/

/-- The two relational operators the source builds from `operator.eq` and
`operator.ne`. -/
inductive RelOp where
  | eq | ne
deriving DecidableEq

/-- Apply a relational operator to two values. -/
def RelOp.apply : RelOp → Value → Value → Bool
  | .eq, a, b => a = b
  | .ne, a, b => a ≠ b

/-- An operand of `relation`: either an `Option` reference (looked up in the
value dictionary, a missing key raising `KeyError`) or a plain literal. -/
inductive Operand where
  | attr : OptName → Operand
  | lit : Value → Operand
deriving DecidableEq

/-- Resolve an operand against the value dictionary (`values[lhs]` when the
operand is an `Option`, otherwise the literal itself). -/
def resolveOperand (values : SpecRecord) : Operand → Except Err Value
  | .attr o =>
    match dictFind o values with
    | some v => .ok v
    | none => .error (.keyError o.enumName)
  | .lit v => .ok v

/-- `relation(relop, lhs, rhs, values)`. -/
def relation (relop : RelOp) (lhs rhs : Operand) (values : SpecRecord) : Except Err Bool :=
  match resolveOperand values lhs with
  | .error e => .error e
  | .ok l =>
    match resolveOperand values rhs with
    | .error e => .error e
    | .ok r => .ok (relop.apply l r)

/-- The `condition` namedtuple of a rule: option, relation, expected value,
message fragment. -/
structure Cond where
  option : OptName
  rel : RelOp
  expected : Operand
  message : String
deriving DecidableEq

/-- Evaluate one condition: `Rule.predicate(option, rel, expected)(values)`. -/
def Cond.eval (c : Cond) (values : SpecRecord) : Except Err Bool :=
  relation c.rel (.attr c.option) c.expected values

/-- The message fragment recorded for a condition that held. -/
def Cond.fmt (c : Cond) : String := c.option.name_key ++ " " ++ c.message

/-- The joiner of a rule (`all` or `any` in the source). -/
inductive Joiner where
  | AllMustHold | AnyMayHold
deriving DecidableEq

/-- The join string of each joiner. -/
def Joiner.joinStr : Joiner → String
  | .AllMustHold => " and "
  | .AnyMayHold => " or "

/-- The `break_on_true` flag of each joiner. -/
def Joiner.breakOnTrue : Joiner → Bool
  | .AllMustHold => false
  | .AnyMayHold => true

/-- Aggregate the recorded results (`all(results)` / `any(results)`). -/
def Joiner.agg : Joiner → List Bool → Bool
  | .AllMustHold, results => results.all id
  | .AnyMayHold, results => results.any id

/-- The condition loop of `rule_check`: evaluate conditions in order,
recording each result, recording the message of each condition that held,
and stopping at the first true result when `breakOnTrue` is set. -/
def runConds (breakOnTrue : Bool) (values : SpecRecord) :
    List Cond → Except Err (List Bool × List String)
  | [] => .ok ([], [])
  | c :: rest =>
    match c.eval values with
    | .error e => .error e
    | .ok b =>
      if b then
        if breakOnTrue then
          .ok ([true], [c.fmt])
        else
          match runConds breakOnTrue values rest with
          | .error e => .error e
          | .ok (bs, ms) => .ok (true :: bs, c.fmt :: ms)
      else
        match runConds breakOnTrue values rest with
        | .error e => .error e
        | .ok (bs, ms) => .ok (false :: bs, ms)

/-- A rule: ordered conditions plus a joiner. -/
structure Rule where
  conditions : List Cond
  joiner : Joiner

/-- `Rule.check(values)` (the inner `rule_check`): raise `RuntimeError` with
the joined messages exactly when the aggregate of the recorded results is
true. -/
def Rule.check (r : Rule) (values : SpecRecord) : Except Err Unit :=
  match runConds r.joiner.breakOnTrue values r.conditions with
  | .error e => .error e
  | .ok (results, messages) =>
    if r.joiner.agg results then
      .error (.runtimeError (joinWith r.joiner.joinStr messages))
    else
      .ok ()

/-- The first built-in validator: dims is full-volume AND vlocation is none. -/
def rule1 : Rule :=
  ⟨[⟨.DIMS, .eq, .lit (.vstr "MAPL_DimsHorzVert"), "is equal to MAPL_DimsHorzVert"⟩,
    ⟨.VLOCATION, .eq, .lit (.vstr "MAPL_VlocationNone"), "is equal to MAPL_VlocationNone"⟩],
   .AllMustHold⟩

/-- The second built-in validator: dims is horizontal-only AND vlocation is
not none (default joiner `all`). -/
def rule2 : Rule :=
  ⟨[⟨.DIMS, .eq, .lit (.vstr "MAPL_DimsHorzOnly"), "is equal to MAPL_DimsHorzOnly"⟩,
    ⟨.VLOCATION, .ne, .lit (.vstr "MAPL_VlocationNone"), "is not equal to MAPL_VlocationNone"⟩],
   .AllMustHold⟩

/-- `check_option_values(values)`: run the two built-in rules in order. -/
def check_option_values (values : SpecRecord) : Except Err Unit :=
  match rule1.check values with
  | .error e => .error e
  | .ok _ => rule2.check values

/-! ### The digestion engine -/

/-- The per-row mutable state of `digest`: the option-value dictionary plus
the tracked `dims` and `ungridded` emitted values (both initialized to
Python `None`). -/
structure DigestState where
  vals : SpecRecord
  dims : Value
  ungridded : Value
deriving DecidableEq

/-- The column loop of `digest`: resolve each column against the schema
(`Option[column.upper()]`, raising `KeyError` for an unknown name), emit the
cell value, store it, derive the mangled and internal names when the column
is the short name, and track the dims/ungridded emitted values. -/
def processColumns : List (String × String) → DigestState → Except Err DigestState
  | [], st => .ok st
  | (column, cell) :: rest, st =>
    match optionOfColumn column with
    | none => .error (.keyError (strUpper column))
    | some opt =>
      let option_value := opt.emit cell
      let vals := dictInsert opt option_value st.vals
      let vals :=
        if opt = .SHORT_NAME then
          dictInsert .INTERNAL_NAME (OptName.emit .INTERNAL_NAME cell)
            (dictInsert .MANGLED_NAME (OptName.emit .MANGLED_NAME cell) vals)
        else vals
      let dims := if opt = .DIMS then option_value else st.dims
      let ungridded := if opt = .UNGRIDDED then option_value else st.ungridded
      processColumns rest ⟨vals, dims, ungridded⟩

/-- The first mandatory option missing from the dictionary (key membership
only, exactly as `option not in option_values`). -/
def firstMissing (vals : SpecRecord) : Option OptName :=
  get_mandatory_options.find? (fun o => (dictFind o vals).isNone)

/-- The mandatory-presence check of `digest`. -/
def checkMandatory (vals : SpecRecord) : Except Err Unit :=
  match firstMissing vals with
  | some o => .error (.runtimeError (o.enumName ++ " is missing from spec."))
  | none => .ok ()

/-- The empty per-row state (`dims = None`, `ungridded = None`). -/
def initState : DigestState := ⟨[], .vnone, .vnone⟩

/-- Digest one raw row: process the columns, check mandatory presence,
compute and store the rank, and run the validators. -/
def digest_row (row : List (String × String)) : Except Err SpecRecord :=
  match processColumns row initState with
  | .error e => .error e
  | .ok st =>
    match checkMandatory st.vals with
    | .error e => .error e
    | .ok _ =>
      match compute_rank st.dims st.ungridded with
      | .error e => .error e
      | .ok rank =>
        let vals := dictInsert .RANK (.vnat rank) st.vals
        match check_option_values vals with
        | .error e => .error e
        | .ok _ => .ok vals

/-- `digest(specs)`: digest every row of every category, fail-fast,
preserving category and row order. -/
def digest (specs : List (String × List (List (String × String)))) :
    Except Err (List (String × List SpecRecord)) :=
  match specs with
  | [] => .ok []
  | (category, rows) :: rest => do
    let digested ← rows.mapM digest_row
    let out ← digest rest
    .ok ((category, digested) :: out)

/-! ### Boolean canonicalization (`get_fortran_logical`) -/

/-- The Fortran true literal. -/
def TRUE_VALUE : String := ".true."

/-- The Fortran false literal. -/
def FALSE_VALUE : String := ".false."

/-- The recognized true tokens (already lowercase in the source). -/
def TRUE_VALUES : List String := [TRUE_VALUE, "t", "true", ".t.", "yes", "y", "si", "oui", "sim"]

/-- The recognized false tokens (the source lists "no" twice; kept verbatim). -/
def FALSE_VALUES : List String := [FALSE_VALUE, "f", "false", ".f.", "no", "n", "no", "non", "nao"]

/-- `get_fortran_logical(value_in)`: `None` input and unrecognized tokens
raise `ValueError`; otherwise the stripped, lowercased token selects the
Fortran literal. -/
def get_fortran_logical (value_in : Option String) : Except Err String :=
  match value_in with
  | none => .error (.valueError "'None' is not valid for get_fortran_logical.")
  | some v =>
    if TRUE_VALUES.contains (strLower (pyStrip v)) then .ok TRUE_VALUE
    else if FALSE_VALUES.contains (strLower (pyStrip v)) then .ok FALSE_VALUE
    else .error (.valueError ("Unrecognized logical: " ++ v))

/-! ### The emission engine (`MAPL_DataSpec`) -/

/-- `MAPL_DataSpec.DELIMITER`. -/
def DELIMITER : String := ", "

/-- `MAPL_DataSpec.TERMINATOR`. -/
def TERMINATOR : String := "_RC)"

/-- The state of a `MAPL_DataSpec` object: the constructor arguments plus
the fields `__init__` extracts.  The mutable `indent` is the only field the
emission methods update. -/
structure DataSpec where
  category : String
  indent : Nat
  mangled_name : Value
  internal_name : Value
  condition : Value
  spec_values : SpecRecord

/-- `MAPL_DataSpec.__init__`: reads the mangled and internal names with
plain indexing (raising `KeyError` when absent, mangled name first) and the
condition with `.get` (Python `None` when absent). -/
def mkDataSpec (category : String) (indent : Nat) (spec_values : SpecRecord) :
    Except Err DataSpec :=
  match dictFind .MANGLED_NAME spec_values with
  | none => .error (.keyError "MANGLED_NAME")
  | some m =>
    match dictFind .INTERNAL_NAME spec_values with
    | none => .error (.keyError "INTERNAL_NAME")
    | some i =>
      .ok ⟨category, indent, m, i, (dictFind .CONDITION spec_values).getD .vnone, spec_values⟩

/-- `self.newline()`: a newline followed by `indent` spaces. -/
def newline (indent : Nat) : String := "\n" ++ ⟨List.replicate indent ' '⟩

/-- `self.continue_line()`. -/
def continue_line (indent : Nat) : String := "&" ++ newline indent ++ "& "

/-- `emit_header`: a newline, then, when the condition is truthy, the guard
line with the indent pushed by 3 before the trailing newline. -/
def emit_header (s : DataSpec) : String × DataSpec :=
  let text := newline s.indent
  if s.condition.truthy then
    let s2 := { s with indent := s.indent + 3 }
    (text ++ "if (" ++ s.condition.pyStr ++ ") then" ++ newline s2.indent, s2)
  else (text, s)

/-- `emit_arg`: one named registration argument when the value is truthy. -/
def emit_arg (indent : Nat) (spec_values : SpecRecord) (option : OptName) : String :=
  match dictFind option spec_values with
  | some v =>
    if v.truthy then option.name_key ++ "=" ++ v.pyStr ++ DELIMITER ++ continue_line indent
    else ""
  | none => ""

/-- `emit_args`: push the indent by 5, emit the call line and every
`output` argument in dictionary order, close with the terminator, and pop
the indent back. -/
def emit_args (s : DataSpec) : String × DataSpec :=
  let indent := s.indent + 5
  let text := "call MAPL_Add" ++ pyCapitalize s.category ++ "Spec(gc," ++ continue_line indent
  let text := (s.spec_values.map Prod.fst).foldl
    (fun acc option =>
      if option.output then acc ++ emit_arg indent s.spec_values option else acc) text
  (text ++ TERMINATOR ++ newline indent, s)

/-- `emit_trailer`: when the condition is truthy, pop the indent by 3 and
close the guard (with a nullifying `else` branch when requested), else a
bare newline. -/
def emit_trailer (nullify : Bool) (s : DataSpec) : String × DataSpec :=
  if s.condition.truthy then
    let s2 := { s with indent := s.indent - 3 }
    let name := s2.internal_name.pyStr
    let text := newline s2.indent
    let text :=
      if nullify then
        text ++ "else" ++ newline s2.indent ++ "   nullify(" ++ name ++ ")" ++ newline s2.indent
      else text
    (text ++ "endif" ++ newline s2.indent, s2)
  else (newline s.indent, s)

/-- `emit_specs`: header, arguments, trailer (without nullify), evaluated
left to right against the mutable indent. -/
def emit_specs (s : DataSpec) : String × DataSpec :=
  let hs := emit_header s
  let gs := emit_args hs.2
  let ts := emit_trailer false gs.2
  (hs.1 ++ gs.1 ++ ts.1, ts.2)

/-- `emit_declare_pointers`: the pointer declaration.  Indexing
`spec_values[Option.RANK]` raises `KeyError` when the rank is absent; for
records produced by digestion the rank is always an int (`vnat`), and a
non-int would make Python's `rank - 1` raise, modelled by `valueError`. -/
def emit_declare_pointers (s : DataSpec) : Except Err (String × DataSpec) :=
  match dictFind .RANK s.spec_values with
  | none => .error (.keyError "RANK")
  | some rv =>
    match rv with
    | .vnat rank =>
      let dimension := "dimension(:" ++ joinWith "" (List.replicate (rank - 1) ",:") ++ ")"
      let text := newline s.indent ++ "real"
      let text :=
        match dictFind .PRECISION s.spec_values with
        | some kind => text ++ "(kind=" ++ kind.pyStr ++ ")"
        | none => text
      .ok (text ++ ", pointer, " ++ dimension ++ " :: " ++ s.internal_name.pyStr, s)
    | v => .error (.valueError ("unsupported operand type for -: " ++ v.pyStr))

/-- `emit_pointer_alloc`: the optional `alloc=` argument, canonicalized by
`get_fortran_logical`; falsy or whitespace-only values contribute nothing. -/
def emit_pointer_alloc (s : DataSpec) : Except Err (List String) :=
  match dictFind .ALLOC s.spec_values with
  | some v =>
    if v.truthy then
      let value := strLower (pyStrip v.pyStr)
      if value.length > 0 then do
        let f ← get_fortran_logical (some value)
        .ok ["alloc=" ++ f]
      else .ok []
    else .ok []
  | none => .ok []

/-- `emit_get_pointers`: join the header/call, names, optional alloc
argument and trailer with the delimiter; the header runs (pushing the
indent) before the alloc argument and the trailer (popping it). -/
def emit_get_pointers (s : DataSpec) : Except Err (String × DataSpec) :=
  let hs := emit_header s
  match emit_pointer_alloc hs.2 with
  | .error e => .error e
  | .ok alloc =>
    let tr := emit_trailer true hs.2
    .ok (joinWith DELIMITER
          ([hs.1 ++ "call MAPL_GetPointer(" ++ hs.2.category,
            hs.2.internal_name.pyStr, hs.2.mangled_name.pyStr] ++ alloc ++ [TERMINATOR ++ tr.1]),
        tr.2)

/-! ### Helper lemmas: dictionaries -/

theorem dictFind_insert_self (k : OptName) (v : Value) (l : SpecRecord) :
    dictFind k (dictInsert k v l) = some v := by
  induction l with
  | nil => simp [dictInsert, dictFind]
  | cons hd tl ih =>
    obtain ⟨k', v'⟩ := hd
    by_cases h : k' = k <;> simp [dictInsert, dictFind, h, ih]

theorem dictFind_insert_ne (k k' : OptName) (v : Value) (l : SpecRecord) (hk : ¬k' = k) :
    dictFind k (dictInsert k' v l) = dictFind k l := by
  induction l with
  | nil => simp [dictInsert, dictFind, hk]
  | cons hd tl ih =>
    obtain ⟨k'', v''⟩ := hd
    simp only [dictInsert]
    by_cases h : k'' = k'
    · subst h
      simp [dictFind, hk]
    · by_cases h2 : k'' = k
      · subst h2
        simp [dictFind, h]
      · simp [dictFind, h, h2, ih]

/-! ### Helper lemmas: comma splitting and bracket stripping -/

theorem splitCommas_ne_nil (l : List Char) : splitCommas l ≠ [] := by
  cases l with
  | nil => simp [splitCommas]
  | cons c rest =>
    simp only [splitCommas]
    cases h : splitCommas rest with
    | nil => simp
    | cons t ts => by_cases hc : c = ',' <;> simp [hc]

theorem splitCommas_length (l : List Char) : (splitCommas l).length = l.count ',' + 1 := by
  induction l with
  | nil => simp [splitCommas]
  | cons c rest ih =>
    simp only [splitCommas]
    cases h : splitCommas rest with
    | nil => exact absurd h (splitCommas_ne_nil rest)
    | cons t ts =>
      rw [h] at ih
      simp only [List.length_cons] at ih
      by_cases hc : c = ','
      · subst hc
        simp only [if_pos rfl, List.length_cons, List.count_cons]
        simp
        omega
      · simp only [if_neg hc, List.length_cons, List.count_cons]
        simp [hc]
        omega

theorem dropWhile_eq_self_of_head (p : Char → Bool) (l : List Char)
    (hl : ∀ y ∈ l.head?, p y = false) : l.dropWhile p = l := by
  cases l with
  | nil => rfl
  | cons x xs =>
    have hx : p x = false := hl x rfl
    simp [List.dropWhile_cons, hx]

theorem stripWhile_wrap (p : Char → Bool) (hopen : p '[' = true) (hclose : p ']' = true)
    (inner : List Char) (hne : inner ≠ [])
    (hh : ∀ y ∈ inner.head?, p y = false) (hl : ∀ y ∈ inner.getLast?, p y = false) :
    stripWhile p ('[' :: (inner ++ [']'])) = inner := by
  obtain ⟨x, xs, rfl⟩ := List.exists_cons_of_ne_nil hne
  have hx : p x = false := hh x rfl
  have h1 : List.dropWhile p ('[' :: ((x :: xs) ++ [']'])) = (x :: xs) ++ [']'] := by
    rw [List.dropWhile_cons]
    simp only [hopen, if_true]
    rw [show (x :: xs) ++ [']'] = x :: (xs ++ [']']) from rfl, List.dropWhile_cons]
    simp [hx]
  have h2 : ((x :: xs) ++ [']']).reverse = ']' :: (x :: xs).reverse := by
    rw [List.reverse_append]
    rfl
  have h3 : List.dropWhile p (']' :: (x :: xs).reverse) = List.dropWhile p ((x :: xs).reverse) := by
    rw [List.dropWhile_cons]
    simp [hclose]
  have h4 : List.dropWhile p ((x :: xs).reverse) = (x :: xs).reverse :=
    dropWhile_eq_self_of_head p _ (by
      intro y hy
      apply hl
      rwa [List.head?_reverse] at hy)
  unfold stripWhile
  rw [h1, h2, h3, h4, List.reverse_reverse]

/-! ### Helper lemmas: the dims/ungridded trackers agree with the dictionary -/

/-- Invariant of the digestion state: each tracked value agrees with the
dictionary entry of its option (the tracker is Python `None` while the
dictionary has no entry). -/
def TrackInv (st : DigestState) : Prop :=
  (dictFind .DIMS st.vals = some st.dims ∨
    (dictFind .DIMS st.vals = none ∧ st.dims = .vnone)) ∧
  (dictFind .UNGRIDDED st.vals = some st.ungridded ∨
    (dictFind .UNGRIDDED st.vals = none ∧ st.ungridded = .vnone))

theorem processColumns_trackInv (row : List (String × String)) :
    ∀ (st st' : DigestState), processColumns row st = .ok st' → TrackInv st → TrackInv st' := by
  induction row with
  | nil =>
    intro st st' h hi
    simp only [processColumns] at h
    cases h
    exact hi
  | cons col rest ih =>
    intro st st' h hi
    obtain ⟨c, cell⟩ := col
    cases ho : optionOfColumn c with
    | none =>
      simp only [processColumns, ho] at h
      exact Except.noConfusion h
    | some opt =>
      simp only [processColumns, ho] at h
      refine ih _ _ h ⟨?_, ?_⟩
      · by_cases hd : opt = .DIMS
        · subst hd
          exact Or.inl (by simp [dictFind_insert_self])
        · by_cases hsn : opt = .SHORT_NAME
          · subst hsn
            simpa [dictFind_insert_ne, hd] using hi.1
          · simpa [dictFind_insert_ne, hsn, hd] using hi.1
      · by_cases hu : opt = .UNGRIDDED
        · subst hu
          exact Or.inl (by simp [dictFind_insert_self])
        · by_cases hsn : opt = .SHORT_NAME
          · subst hsn
            simpa [dictFind_insert_ne, hu] using hi.2
          · simpa [dictFind_insert_ne, hsn, hu] using hi.2

/-! ### Helper lemmas: the rule engine -/

theorem cond_eval_lit (o : OptName) (rel : RelOp) (lv : Value) (msg : String)
    (values : SpecRecord) (v : Value) (hv : dictFind o values = some v) :
    Cond.eval ⟨o, rel, .lit lv, msg⟩ values = .ok (rel.apply v lv) := by
  simp [Cond.eval, relation, resolveOperand, hv]

theorem cond_eval_lit_missing (o : OptName) (rel : RelOp) (lv : Value) (msg : String)
    (values : SpecRecord) (hv : dictFind o values = none) :
    Cond.eval ⟨o, rel, .lit lv, msg⟩ values = .error (.keyError o.enumName) := by
  simp [Cond.eval, relation, resolveOperand, hv]

theorem runConds_all_true (values : SpecRecord) (cs : List Cond)
    (h : ∀ c ∈ cs, c.eval values = .ok true) :
    runConds false values cs = .ok (cs.map (fun _ => true), cs.map Cond.fmt) := by
  induction cs with
  | nil => rfl
  | cons c rest ih =>
    have hc := h c (by simp)
    simp [runConds, hc, ih (fun c' hc' => h c' (by simp [hc']))]

theorem runConds_all_evaluable (values : SpecRecord) (cs : List Cond)
    (h : ∀ c ∈ cs, ∃ b, c.eval values = .ok b) :
    ∃ bs ms, runConds false values cs = .ok (bs, ms) ∧
      (bs.all id = true ↔ ∀ c ∈ cs, c.eval values = .ok true) := by
  induction cs with
  | nil => exact ⟨[], [], rfl, by simp⟩
  | cons c rest ih =>
    obtain ⟨b, hb⟩ := h c (by simp)
    obtain ⟨bs, ms, hrun, hiff⟩ := ih (fun c' hc' => h c' (by simp [hc']))
    cases b with
    | true =>
      refine ⟨true :: bs, c.fmt :: ms, ?_, ?_⟩
      · simp [runConds, hb, hrun]
      · simp only [List.all_cons, id, Bool.true_and]
        rw [hiff]
        constructor
        · intro hall c' hc'
          rcases List.mem_cons.mp hc' with h1 | h1
          · subst h1; exact hb
          · exact hall c' h1
        · intro hall c' hc'
          exact hall c' (by simp [hc'])
    | false =>
      refine ⟨false :: bs, ms, ?_, ?_⟩
      · simp [runConds, hb, hrun]
      · constructor
        · intro hall
          simp at hall
        · intro hall
          have := hall c (by simp)
          rw [hb] at this
          cases this

theorem runConds_any_all_false (values : SpecRecord) (cs : List Cond)
    (h : ∀ c ∈ cs, c.eval values = .ok false) :
    runConds true values cs = .ok (cs.map (fun _ => false), []) := by
  induction cs with
  | nil => rfl
  | cons c rest ih =>
    have hc := h c (by simp)
    simp [runConds, hc, ih (fun c' hc' => h c' (by simp [hc']))]

theorem runConds_any_first_true (values : SpecRecord) (pre : List Cond) (c : Cond)
    (post : List Cond) (hpre : ∀ c' ∈ pre, c'.eval values = .ok false)
    (hc : c.eval values = .ok true) :
    runConds true values (pre ++ c :: post) = .ok (pre.map (fun _ => false) ++ [true], [c.fmt]) := by
  induction pre with
  | nil => simp [runConds, hc]
  | cons p rest ih =>
    have hp := hpre p (by simp)
    simp [runConds, hp, ih (fun c' hc' => hpre c' (by simp [hc']))]

/-- Characterization of `Rule.check` for a two-condition `AllMustHold` rule
whose conditions evaluate cleanly. -/
theorem rule_check_two_all (cA cB : Cond) (values : SpecRecord) (bA bB : Bool)
    (hA : cA.eval values = .ok bA) (hB : cB.eval values = .ok bB) :
    Rule.check ⟨[cA, cB], .AllMustHold⟩ values =
      if bA && bB then
        .error (.runtimeError (joinWith " and "
          ((if bA then [cA.fmt] else []) ++ (if bB then [cB.fmt] else []))))
      else .ok () := by
  cases bA <;> cases bB <;>
    simp [Rule.check, runConds, hA, hB, Joiner.breakOnTrue, Joiner.agg, Joiner.joinStr]

/-- Full characterization of `check_option_values` on a record that supplies
both the dims and the vlocation attributes. -/
theorem check_option_values_char (values : SpecRecord) (d v : Value)
    (hd : dictFind .DIMS values = some d) (hv : dictFind .VLOCATION values = some v) :
    check_option_values values =
      if d = .vstr "MAPL_DimsHorzVert" ∧ v = .vstr "MAPL_VlocationNone" then
        .error (.runtimeError
          "dims is equal to MAPL_DimsHorzVert and vlocation is equal to MAPL_VlocationNone")
      else if d = .vstr "MAPL_DimsHorzOnly" ∧ ¬v = .vstr "MAPL_VlocationNone" then
        .error (.runtimeError
          "dims is equal to MAPL_DimsHorzOnly and vlocation is not equal to MAPL_VlocationNone")
      else .ok () := by
  have e11 := cond_eval_lit .DIMS .eq (.vstr "MAPL_DimsHorzVert")
    "is equal to MAPL_DimsHorzVert" values d hd
  have e12 := cond_eval_lit .VLOCATION .eq (.vstr "MAPL_VlocationNone")
    "is equal to MAPL_VlocationNone" values v hv
  have e21 := cond_eval_lit .DIMS .eq (.vstr "MAPL_DimsHorzOnly")
    "is equal to MAPL_DimsHorzOnly" values d hd
  have e22 := cond_eval_lit .VLOCATION .ne (.vstr "MAPL_VlocationNone")
    "is not equal to MAPL_VlocationNone" values v hv
  simp only [RelOp.apply] at e11 e12 e21 e22
  have hr1 := rule_check_two_all _ _ values _ _ e11 e12
  have hr2 := rule_check_two_all _ _ values _ _ e21 e22
  by_cases h1 : d = .vstr "MAPL_DimsHorzVert" <;>
    by_cases h2 : v = .vstr "MAPL_VlocationNone"
  · simp only [check_option_values, rule1, hr1, h1, h2]
    simp [Cond.fmt, OptName.name_key, joinWith]
  · have h3 : ¬d = .vstr "MAPL_DimsHorzOnly" := by
      rw [h1]
      intro hcon
      exact absurd (Value.vstr.inj hcon) (by decide)
    simp only [check_option_values, rule1, hr1, rule2, hr2, h1, h2, h3]
    simp [h2, h3]
  · by_cases h3 : d = .vstr "MAPL_DimsHorzOnly"
    · simp only [check_option_values, rule1, hr1, rule2, hr2]
      simp [h1, h2, h3]
    · simp only [check_option_values, rule1, hr1, rule2, hr2]
      simp [h1, h2, h3]
  · by_cases h3 : d = .vstr "MAPL_DimsHorzOnly"
    · simp only [check_option_values, rule1, hr1, rule2, hr2]
      simp only [h1, h2, h3]
      simp [Cond.fmt, OptName.name_key, joinWith, h1, h2, h3]
    · simp only [check_option_values, rule1, hr1, rule2, hr2]
      simp [h1, h2, h3]

/-- On a record that supplies dims but not vlocation, the first rule's
second condition raises `KeyError` before any violation can be reported. -/
theorem check_option_values_missing_vlocation (values : SpecRecord) (d : Value)
    (hd : dictFind .DIMS values = some d) (hv : dictFind .VLOCATION values = none) :
    check_option_values values = .error (.keyError "VLOCATION") := by
  have e11 := cond_eval_lit .DIMS .eq (.vstr "MAPL_DimsHorzVert")
    "is equal to MAPL_DimsHorzVert" values d hd
  have e12 := cond_eval_lit_missing .VLOCATION .eq (.vstr "MAPL_VlocationNone")
    "is equal to MAPL_VlocationNone" values hv
  simp only [RelOp.apply] at e11
  have : rule1.check values = .error (.keyError "VLOCATION") := by
    cases hb : RelOp.apply .eq d (.vstr "MAPL_DimsHorzVert") <;>
      simp only [RelOp.apply] at hb <;>
      simp [Rule.check, rule1, runConds, e11, e12, hb, Joiner.breakOnTrue,
        OptName.enumName]
  simp [check_option_values, this]

/-! ### Claim C2 -/

/-- C2: for a record supplying dims and vlocation values, `check_option_values`
raises a `RuleViolation` (a `RuntimeError`) iff dims is `MAPL_DimsHorzVert`
with vlocation `MAPL_VlocationNone`, or dims is `MAPL_DimsHorzOnly` with
vlocation not `MAPL_VlocationNone`; in the first case the message is the two
condition phrases joined by " and "; and a full record with dims
horizontal+vertical and vlocation center digests successfully. -/
theorem C2_validator_iff (values : SpecRecord) (d v : Value)
    (hd : dictFind .DIMS values = some d) (hv : dictFind .VLOCATION values = some v) :
    ((∃ msg, check_option_values values = .error (.runtimeError msg)) ↔
      ((d = .vstr "MAPL_DimsHorzVert" ∧ v = .vstr "MAPL_VlocationNone") ∨
       (d = .vstr "MAPL_DimsHorzOnly" ∧ ¬v = .vstr "MAPL_VlocationNone"))) ∧
    (d = .vstr "MAPL_DimsHorzVert" → v = .vstr "MAPL_VlocationNone" →
      check_option_values values = .error (.runtimeError
        "dims is equal to MAPL_DimsHorzVert and vlocation is equal to MAPL_VlocationNone")) ∧
    digest_row [("SHORT_NAME", "x"), ("LONG_NAME", "ln"), ("UNITS", "u"),
        ("DIMS", "xyz"), ("VLOCATION", "C")] =
      .ok [(.SHORT_NAME, .vstr "'x'"), (.MANGLED_NAME, .vstr "'x'"),
           (.INTERNAL_NAME, .vstr "x"), (.LONG_NAME, .vstr "'ln'"),
           (.UNITS, .vstr "'u'"), (.DIMS, .vstr "MAPL_DimsHorzVert"),
           (.VLOCATION, .vstr "MAPL_VlocationCenter"), (.RANK, .vnat 3)] := by
  have hc := check_option_values_char values d v hd hv
  refine ⟨?_, ?_, rfl⟩
  · rw [hc]
    split_ifs with hA hB
    · simp [hA]
    · simp [hA, hB]
    · simp [hA, hB]
  · intro h1 h2
    rw [hc]
    simp [h1, h2]

/-- Witness for C2 at a concrete record with dims horizontal+vertical and
vlocation none. -/
theorem C2_witness :
    ∃ msg, check_option_values
        [(.DIMS, .vstr "MAPL_DimsHorzVert"), (.VLOCATION, .vstr "MAPL_VlocationNone")] =
      .error (.runtimeError msg) :=
  (C2_validator_iff
    [(.DIMS, .vstr "MAPL_DimsHorzVert"), (.VLOCATION, .vstr "MAPL_VlocationNone")]
    _ _ rfl rfl).1.mpr (Or.inl ⟨rfl, rfl⟩)

/-! ### Claim C3 -/

/-- C3: `Rule.check`, on a value map that supplies every attribute named in
the rule's conditions, evaluates the conditions in order, short-circuits at
the first true condition when the joiner is `AnyMayHold`, raises a violation
exactly when the aggregate is true, and joins the true conditions' formatted
messages with the joiner's string. -/
theorem C3_rule_check_spec (r : Rule) (values : SpecRecord)
    (hres : ∀ c ∈ r.conditions, ∃ b, c.eval values = .ok b) :
    (r.joiner = .AllMustHold →
      ((∀ c ∈ r.conditions, c.eval values = .ok true) →
        r.check values =
          .error (.runtimeError (joinWith " and " (r.conditions.map Cond.fmt)))) ∧
      ((¬∀ c ∈ r.conditions, c.eval values = .ok true) → r.check values = .ok ())) ∧
    (r.joiner = .AnyMayHold →
      ((∀ c ∈ r.conditions, c.eval values = .ok false) → r.check values = .ok ()) ∧
      (∀ pre c post, r.conditions = pre ++ c :: post →
        (∀ c' ∈ pre, c'.eval values = .ok false) → c.eval values = .ok true →
        r.check values = .error (.runtimeError c.fmt))) := by
  constructor
  · intro hj
    constructor
    · intro hall
      have hrun := runConds_all_true values r.conditions hall
      have htrue : (r.conditions.map (fun _ => true)).all id = true := by simp
      simp [Rule.check, hj, Joiner.breakOnTrue, hrun, Joiner.agg, htrue, Joiner.joinStr]
    · intro hnall
      obtain ⟨bs, ms, hrun, hiff⟩ := runConds_all_evaluable values r.conditions hres
      have hbs : bs.all id = false := by
        cases hall : bs.all id with
        | true => exact absurd (hiff.mp hall) hnall
        | false => rfl
      simp [Rule.check, hj, Joiner.breakOnTrue, hrun, Joiner.agg, hbs]
  · intro hj
    constructor
    · intro hall
      have hrun := runConds_any_all_false values r.conditions hall
      have hfalse : (r.conditions.map (fun _ => false)).any id = false := by simp
      simp [Rule.check, hj, Joiner.breakOnTrue, hrun, Joiner.agg, hfalse]
    · intro pre c post hsplit hpre hc
      have hrun := runConds_any_first_true values pre c post hpre hc
      rw [← hsplit] at hrun
      have hany : ((pre.map fun _ => false) ++ [true]).any id = true := by simp
      simp [Rule.check, hj, Joiner.breakOnTrue, hrun, Joiner.agg, hany, Joiner.joinStr,
        joinWith]

/-- Witness for C3: the first built-in rule, applied to a violating record,
raises the joined message. -/
theorem C3_witness :
    rule1.check [(.DIMS, .vstr "MAPL_DimsHorzVert"), (.VLOCATION, .vstr "MAPL_VlocationNone")] =
      .error (.runtimeError
        "dims is equal to MAPL_DimsHorzVert and vlocation is equal to MAPL_VlocationNone") := by
  have hres : ∀ c ∈ rule1.conditions, ∃ b,
      c.eval [(.DIMS, .vstr "MAPL_DimsHorzVert"), (.VLOCATION, .vstr "MAPL_VlocationNone")] =
        .ok b := by
    intro c hc
    simp only [rule1, List.mem_cons, List.not_mem_nil, or_false] at hc
    rcases hc with rfl | rfl
    · exact ⟨true, rfl⟩
    · exact ⟨true, rfl⟩
  have hall : ∀ c ∈ rule1.conditions,
      c.eval [(.DIMS, .vstr "MAPL_DimsHorzVert"), (.VLOCATION, .vstr "MAPL_VlocationNone")] =
        .ok true := by
    intro c hc
    simp only [rule1, List.mem_cons, List.not_mem_nil, or_false] at hc
    rcases hc with rfl | rfl
    · rfl
    · rfl
  have h := ((C3_rule_check_spec rule1
      [(.DIMS, .vstr "MAPL_DimsHorzVert"), (.VLOCATION, .vstr "MAPL_VlocationNone")]
      hres).1 rfl).1 hall
  rw [show joinWith " and " (rule1.conditions.map Cond.fmt) =
      "dims is equal to MAPL_DimsHorzVert and vlocation is equal to MAPL_VlocationNone"
    from rfl] at h
  exact h

/-! ### Claim C10 -/

/-- C10: the built-in validators read the vlocation value unconditionally,
so a record without a vlocation entry makes rule checking raise `KeyError`
(not one of the named error kinds), even though vlocation is not marked
mandatory; a full row without a vlocation column therefore fails digestion
with that `KeyError`. -/
theorem C10_vlocation_required (values : SpecRecord) (d : Value)
    (hd : dictFind .DIMS values = some d) (hv : dictFind .VLOCATION values = none) :
    check_option_values values = .error (.keyError "VLOCATION") ∧
    OptName.mandatory .VLOCATION = false ∧
    digest_row [("SHORT_NAME", "x"), ("LONG_NAME", "ln"), ("UNITS", "u"), ("DIMS", "xyz")] =
      .error (.keyError "VLOCATION") :=
  ⟨check_option_values_missing_vlocation values d hd hv, rfl, rfl⟩

/-- Witness for C10 at a concrete record supplying dims only. -/
theorem C10_witness :
    check_option_values [(.DIMS, .vstr "MAPL_DimsHorzOnly")] = .error (.keyError "VLOCATION") :=
  (C10_vlocation_required [(.DIMS, .vstr "MAPL_DimsHorzOnly")] _ rfl rfl).1

/-! ### Claim C6 -/

/-- C6: `get_fortran_logical` maps every token whose stripped, lowercased
form is a recognized true token to `.true.`, every token whose stripped,
lowercased form is a recognized false token to `.false.`, fails with
`ValueError` on tokens in neither set, and fails on `None` input. -/
theorem C6_fortran_logical :
    (∀ s : String, TRUE_VALUES.contains (strLower (pyStrip s)) = true →
      get_fortran_logical (some s) = .ok ".true.") ∧
    (∀ s : String, FALSE_VALUES.contains (strLower (pyStrip s)) = true →
      get_fortran_logical (some s) = .ok ".false.") ∧
    (∀ s : String, TRUE_VALUES.contains (strLower (pyStrip s)) = false →
      FALSE_VALUES.contains (strLower (pyStrip s)) = false →
      get_fortran_logical (some s) = .error (.valueError ("Unrecognized logical: " ++ s))) ∧
    get_fortran_logical none =
      .error (.valueError "'None' is not valid for get_fortran_logical.") := by
  refine ⟨?_, ?_, ?_, rfl⟩
  · intro s h
    have h' : strLower (pyStrip s) ∈ TRUE_VALUES := by simpa using h
    simp [get_fortran_logical, h', TRUE_VALUE]
  · intro s h
    have h' : strLower (pyStrip s) ∈ FALSE_VALUES := by simpa using h
    have hne : ¬strLower (pyStrip s) ∈ TRUE_VALUES := by
      simp only [FALSE_VALUES, FALSE_VALUE, List.mem_cons, List.not_mem_nil, or_false] at h'
      rcases h' with h1 | h1 | h1 | h1 | h1 | h1 | h1 | h1 | h1 <;> rw [h1] <;> decide
    simp [get_fortran_logical, hne, h', FALSE_VALUE]
  · intro s h1 h2
    have h1' : ¬strLower (pyStrip s) ∈ TRUE_VALUES := by
      intro hmem
      rw [show TRUE_VALUES.contains (strLower (pyStrip s)) = true by simpa using hmem] at h1
      cases h1
    have h2' : ¬strLower (pyStrip s) ∈ FALSE_VALUES := by
      intro hmem
      rw [show FALSE_VALUES.contains (strLower (pyStrip s)) = true by simpa using hmem] at h2
      cases h2
    simp [get_fortran_logical, h1', h2']

/-- Witness for C6 at concrete true, false and unrecognized tokens. -/
theorem C6_witness :
    get_fortran_logical (some " Oui ") = .ok ".true." ∧
    get_fortran_logical (some "NAO") = .ok ".false." ∧
    get_fortran_logical (some "maybe") = .error (.valueError "Unrecognized logical: maybe") :=
  ⟨C6_fortran_logical.1 " Oui " rfl,
   C6_fortran_logical.2.1 "NAO" rfl,
   C6_fortran_logical.2.2.1 "maybe" rfl rfl⟩

/-! ### Helper lemmas: the emission engine -/

theorem emit_header_state (s : DataSpec) :
    (emit_header s).2 = if s.condition.truthy then { s with indent := s.indent + 3 } else s := by
  by_cases h : s.condition.truthy <;> simp [emit_header, h]

theorem emit_trailer_state (nullify : Bool) (s : DataSpec) :
    (emit_trailer nullify s).2 =
      if s.condition.truthy then { s with indent := s.indent - 3 } else s := by
  by_cases h : s.condition.truthy <;> simp [emit_trailer, h]

theorem emit_args_state (s : DataSpec) : (emit_args s).2 = s := rfl

/-- The pointer-declaration text in closed form, for a record whose rank
entry is an int. -/
theorem emit_declare_pointers_char (s : DataSpec) (r : Nat)
    (hr : dictFind .RANK s.spec_values = some (.vnat r)) :
    emit_declare_pointers s = .ok
      ((match dictFind .PRECISION s.spec_values with
        | some kind => newline s.indent ++ "real" ++ "(kind=" ++ kind.pyStr ++ ")"
        | none => newline s.indent ++ "real") ++
        ", pointer, " ++ ("dimension(:" ++ joinWith "" (List.replicate (r - 1) ",:") ++ ")") ++
        " :: " ++ s.internal_name.pyStr, s) := by
  unfold emit_declare_pointers
  rw [hr]

theorem emit_declare_pointers_state (s : DataSpec) (t : String) (s' : DataSpec)
    (h : emit_declare_pointers s = .ok (t, s')) : s' = s := by
  unfold emit_declare_pointers at h
  cases hr : dictFind .RANK s.spec_values with
  | none => rw [hr] at h; cases h
  | some rv =>
    rw [hr] at h
    cases rv with
    | vnone => cases h
    | vstr a => cases h
    | vnat n =>
      simp only [Except.ok.injEq, Prod.mk.injEq] at h
      exact h.2.symm

theorem joinWith_replicate_count (n : Nat) :
    (joinWith "" (List.replicate n ",:")).data.count ':' = n := by
  induction n with
  | zero => rfl
  | succ m ih =>
    rw [List.replicate_succ]
    cases hm : List.replicate m ",:" with
    | nil =>
      have : m = 0 := by simpa using hm
      subst this
      rfl
    | cons x xs =>
      simp only [joinWith]
      rw [← hm]
      have h1 : (",:" : String).data.count ':' = 1 := by decide
      have h2 : ("" : String).data.count ':' = 0 := by decide
      simp only [String.data_append, List.count_append, ih, h1, h2]
      omega

/-! ### Claim C7 -/

/-- C7: for each of the three fragment emissions (registration, pointer
declaration, pointer retrieval), the indent level after emitting equals the
indent level before, whether or not a condition is present. -/
theorem C7_indent_net_zero (s : DataSpec) :
    ((emit_specs s).2.indent = s.indent) ∧
    (∀ t s', emit_declare_pointers s = .ok (t, s') → s'.indent = s.indent) ∧
    (∀ t s', emit_get_pointers s = .ok (t, s') → s'.indent = s.indent) := by
  refine ⟨?_, ?_, ?_⟩
  · by_cases h : s.condition.truthy <;>
      simp [emit_specs, emit_args_state, emit_trailer_state, emit_header_state, h]
  · intro t s' h
    rw [emit_declare_pointers_state s t s' h]
  · intro t s' h
    cases ha : emit_pointer_alloc (emit_header s).2 with
    | error e =>
      simp only [emit_get_pointers, ha] at h
      exact Except.noConfusion h
    | ok alloc =>
      simp only [emit_get_pointers, ha, Except.ok.injEq, Prod.mk.injEq] at h
      rw [← h.2]
      rw [emit_trailer_state, emit_header_state]
      by_cases hc : s.condition.truthy <;> simp [hc]

/-- Witness for C7 at a concrete spec with a condition present. -/
theorem C7_witness :
    ((emit_specs ⟨"import", 3, .vstr "'x'", .vstr "x", .vstr "COND > 0",
        [(.RANK, .vnat 1)]⟩).2.indent =
      (⟨"import", 3, .vstr "'x'", .vstr "x", .vstr "COND > 0",
        [(.RANK, .vnat 1)]⟩ : DataSpec).indent) ∧
    (emit_declare_pointers ⟨"import", 3, .vstr "'x'", .vstr "x", .vstr "COND > 0",
        [(.RANK, .vnat 1)]⟩ =
      .ok ("\n   real, pointer, dimension(:) :: x",
        ⟨"import", 3, .vstr "'x'", .vstr "x", .vstr "COND > 0", [(.RANK, .vnat 1)]⟩)) ∧
    ((⟨"import", 3, .vstr "'x'", .vstr "x", .vstr "COND > 0",
        [(.RANK, .vnat 1)]⟩ : DataSpec).indent = 3) ∧
    (emit_get_pointers ⟨"import", 3, .vstr "'x'", .vstr "x", .vstr "COND > 0",
        [(.RANK, .vnat 1)]⟩ =
      .ok ("\n   if (COND > 0) then\n      call MAPL_GetPointer(import, x, 'x', _RC)\n   else\n      nullify(x)\n   endif\n   ",
        ⟨"import", 3, .vstr "'x'", .vstr "x", .vstr "COND > 0", [(.RANK, .vnat 1)]⟩)) ∧
    ((⟨"import", 3, .vstr "'x'", .vstr "x", .vstr "COND > 0",
        [(.RANK, .vnat 1)]⟩ : DataSpec).indent = 3) :=
  ⟨(C7_indent_net_zero
      ⟨"import", 3, .vstr "'x'", .vstr "x", .vstr "COND > 0", [(.RANK, .vnat 1)]⟩).1, rfl,
   ((C7_indent_net_zero
      ⟨"import", 3, .vstr "'x'", .vstr "x", .vstr "COND > 0", [(.RANK, .vnat 1)]⟩).2.1
     "\n   real, pointer, dimension(:) :: x"
     ⟨"import", 3, .vstr "'x'", .vstr "x", .vstr "COND > 0", [(.RANK, .vnat 1)]⟩ rfl).trans rfl,
   rfl,
   ((C7_indent_net_zero
      ⟨"import", 3, .vstr "'x'", .vstr "x", .vstr "COND > 0", [(.RANK, .vnat 1)]⟩).2.2
     "\n   if (COND > 0) then\n      call MAPL_GetPointer(import, x, 'x', _RC)\n   else\n      nullify(x)\n   endif\n   "
     ⟨"import", 3, .vstr "'x'", .vstr "x", .vstr "COND > 0", [(.RANK, .vnat 1)]⟩ rfl).trans rfl⟩

/-! ### Claim C8 -/

/-- C8: the pointer-declaration fragment declares a pointer named by the
internal name with exactly rank-many dimensions, carries a kind qualifier
exactly when the precision attribute is present (visible in the closed
form), and its text does not depend on the condition attribute (neither the
condition field nor a CONDITION entry in the record). -/
theorem C8_declare_pointers (s : DataSpec) (r : Nat) (nm : String)
    (hr : dictFind .RANK s.spec_values = some (.vnat r))
    (hnm : s.internal_name = .vstr nm) (hr1 : 1 ≤ r) :
    emit_declare_pointers s = .ok
      ((match dictFind .PRECISION s.spec_values with
        | some kind => newline s.indent ++ "real" ++ "(kind=" ++ kind.pyStr ++ ")"
        | none => newline s.indent ++ "real") ++
        ", pointer, " ++ ("dimension(:" ++ joinWith "" (List.replicate (r - 1) ",:") ++ ")") ++
        " :: " ++ nm, s) ∧
    ("dimension(:" ++ joinWith "" (List.replicate (r - 1) ",:") ++ ")").data.count ':' = r ∧
    (∀ cv : Value, (emit_declare_pointers { s with condition := cv }).map Prod.fst =
      (emit_declare_pointers s).map Prod.fst) ∧
    (∀ cv : Value,
      (emit_declare_pointers
          { s with spec_values := dictInsert .CONDITION cv s.spec_values }).map Prod.fst =
        (emit_declare_pointers s).map Prod.fst) := by
  refine ⟨?_, ?_, ?_, ?_⟩
  · have h := emit_declare_pointers_char s r hr
    rw [hnm] at h
    exact h
  · simp only [String.data_append, List.count_append, joinWith_replicate_count]
    have h1 : ("dimension(:").data.count ':' = 1 := by decide
    have h2 : (")").data.count ':' = 0 := by decide
    rw [h1, h2]
    omega
  · intro cv
    rw [emit_declare_pointers_char s r hr,
      emit_declare_pointers_char { s with condition := cv } r hr]
    simp [Except.map]
  · intro cv
    have hr' : dictFind .RANK (dictInsert .CONDITION cv s.spec_values) = some (.vnat r) := by
      rw [dictFind_insert_ne _ _ _ _ (by decide)]
      exact hr
    rw [emit_declare_pointers_char s r hr,
      emit_declare_pointers_char { s with spec_values := dictInsert .CONDITION cv s.spec_values }
        r hr']
    simp [Except.map,
      dictFind_insert_ne _ _ _ _ (by decide : ¬OptName.CONDITION = OptName.PRECISION)]

/-- Witness for C8 at a concrete spec of rank 2 with precision 8. -/
theorem C8_witness :
    emit_declare_pointers
        ⟨"import", 3, .vstr "'x'", .vstr "x", .vnone,
         [(.RANK, .vnat 2), (.PRECISION, .vstr "8")]⟩ =
      .ok ("\n   real(kind=8), pointer, dimension(:,:) :: x",
        ⟨"import", 3, .vstr "'x'", .vstr "x", .vnone,
         [(.RANK, .vnat 2), (.PRECISION, .vstr "8")]⟩) ∧
    ("dimension(:" ++ joinWith "" (List.replicate (2 - 1) ",:") ++ ")").data.count ':' = 2 := by
  have h := C8_declare_pointers
    ⟨"import", 3, .vstr "'x'", .vstr "x", .vnone,
     [(.RANK, .vnat 2), (.PRECISION, .vstr "8")]⟩ 2 "x" rfl rfl (by decide)
  exact ⟨h.1.trans (by rfl), h.2.1⟩

/-! ### Helper lemmas: digestion -/

theorem digest_row_ok_elim (row : List (String × String)) (rec : SpecRecord)
    (h : digest_row row = .ok rec) :
    ∃ st rank, processColumns row initState = .ok st ∧
      checkMandatory st.vals = .ok () ∧
      compute_rank st.dims st.ungridded = .ok rank ∧
      check_option_values (dictInsert .RANK (.vnat rank) st.vals) = .ok () ∧
      rec = dictInsert .RANK (.vnat rank) st.vals := by
  cases hp : processColumns row initState with
  | error e => simp [digest_row, hp] at h
  | ok st =>
    cases hm : checkMandatory st.vals with
    | error e => simp [digest_row, hp, hm] at h
    | ok u =>
      cases u
      cases hr : compute_rank st.dims st.ungridded with
      | error e => simp [digest_row, hp, hm, hr] at h
      | ok rank =>
        cases hc : check_option_values (dictInsert .RANK (.vnat rank) st.vals) with
        | error e => simp [digest_row, hp, hm, hr, hc] at h
        | ok u2 =>
          cases u2
          refine ⟨st, rank, rfl, hm, hr, hc, ?_⟩
          simp [digest_row, hp, hm, hr, hc] at h
          exact h.symm

theorem checkMandatory_ok (vals : SpecRecord) (h : checkMandatory vals = .ok ()) :
    ∀ o ∈ get_mandatory_options, (dictFind o vals).isSome = true := by
  intro o ho
  cases hf : firstMissing vals with
  | some o2 => simp [checkMandatory, hf] at h
  | none =>
    have hnone := List.find?_eq_none.mp hf o ho
    cases hdo : dictFind o vals with
    | none => exact absurd (by simp [hdo]) hnone
    | some v => simp

theorem mandatory_mem (o : OptName) (h : o.mandatory = true) : o ∈ get_mandatory_options := by
  have hall : o ∈ allOptions := by cases o <;> simp [allOptions]
  exact List.mem_filter.mpr ⟨hall, h⟩

theorem processColumns_congr (c1 c2 : String) (o : OptName)
    (h1 : optionOfColumn c1 = some o) (h2 : optionOfColumn c2 = some o)
    (pre post : List (String × String)) (cell : String) :
    ∀ st, processColumns (pre ++ (c1, cell) :: post) st =
      processColumns (pre ++ (c2, cell) :: post) st := by
  induction pre with
  | nil =>
    intro st
    simp only [List.nil_append, processColumns, h1, h2]
  | cons hd rest ih =>
    intro st
    obtain ⟨c, cel⟩ := hd
    simp only [List.cons_append, processColumns]
    cases ho : optionOfColumn c with
    | none => simp only [ho]
    | some opt =>
      simp only [ho]
      exact ih _

/-! ### Claim C4 -/

/-- C4 counterexample: a row whose mandatory units cell is the empty string
is accepted by digestion, and the resulting record's units value is null
(`None`), so a mandatory attribute of an accepted record can be null. -/
theorem C4_counterexample :
    digest_row [("SHORT_NAME", "x"), ("LONG_NAME", "ln"), ("UNITS", ""),
        ("DIMS", "xy"), ("VLOCATION", "N")] =
      .ok [(.SHORT_NAME, .vstr "'x'"), (.MANGLED_NAME, .vstr "'x'"),
           (.INTERNAL_NAME, .vstr "x"), (.LONG_NAME, .vstr "'ln'"),
           (.UNITS, .vnone), (.DIMS, .vstr "MAPL_DimsHorzOnly"),
           (.VLOCATION, .vstr "MAPL_VlocationNone"), (.RANK, .vnat 2)] ∧
    dictFind .UNITS
      [(.SHORT_NAME, .vstr "'x'"), (.MANGLED_NAME, .vstr "'x'"),
       (.INTERNAL_NAME, .vstr "x"), (.LONG_NAME, .vstr "'ln'"),
       (.UNITS, .vnone), (.DIMS, .vstr "MAPL_DimsHorzOnly"),
       (.VLOCATION, .vstr "MAPL_VlocationNone"), (.RANK, .vnat 2)] = some .vnone ∧
    OptName.mandatory .UNITS = true :=
  ⟨rfl, rfl, rfl⟩

/-- C4 (amended): every raw row that digestion accepts yields a record in
which every mandatory schema option is present as a key; the presence check
tests key membership only, so the stored value may be null (as when the raw
cell is empty or an unrecognized enumerated code). -/
theorem C4_mandatory_present_amended (row : List (String × String)) (rec : SpecRecord)
    (h : digest_row row = .ok rec) :
    ∀ o : OptName, o.mandatory = true → (dictFind o rec).isSome = true := by
  obtain ⟨st, rank, hp, hm, hr, hc, hrec⟩ := digest_row_ok_elim row rec h
  intro o ho
  have hmem := checkMandatory_ok st.vals hm o (mandatory_mem o ho)
  rw [hrec]
  have hne : ¬OptName.RANK = o := by
    intro hEq
    rw [← hEq] at ho
    exact absurd ho (by decide)
  rw [dictFind_insert_ne _ _ _ _ hne]
  exact hmem

/-- Witness for C4 (amended) at a concrete accepted row. -/
theorem C4_witness :
    digest_row [("SHORT_NAME", "x"), ("LONG_NAME", "ln"), ("UNITS", "u"),
        ("DIMS", "xy"), ("VLOCATION", "N")] =
      .ok [(.SHORT_NAME, .vstr "'x'"), (.MANGLED_NAME, .vstr "'x'"),
           (.INTERNAL_NAME, .vstr "x"), (.LONG_NAME, .vstr "'ln'"),
           (.UNITS, .vstr "'u'"), (.DIMS, .vstr "MAPL_DimsHorzOnly"),
           (.VLOCATION, .vstr "MAPL_VlocationNone"), (.RANK, .vnat 2)] ∧
    (dictFind .UNITS
      [(.SHORT_NAME, .vstr "'x'"), (.MANGLED_NAME, .vstr "'x'"),
       (.INTERNAL_NAME, .vstr "x"), (.LONG_NAME, .vstr "'ln'"),
       (.UNITS, .vstr "'u'"), (.DIMS, .vstr "MAPL_DimsHorzOnly"),
       (.VLOCATION, .vstr "MAPL_VlocationNone"), (.RANK, .vnat 2)]).isSome = true :=
  ⟨rfl, C4_mandatory_present_amended
    [("SHORT_NAME", "x"), ("LONG_NAME", "ln"), ("UNITS", "u"),
     ("DIMS", "xy"), ("VLOCATION", "N")] _ rfl .UNITS rfl⟩

/-! ### Claim C5 -/

/-- C5: after the columns of a row are processed, a missing mandatory option
makes digestion fail with the missing-option message naming the (first)
missing option, before rank computation or rule checking; a row supplying
short and long names but no units column fails with the UNITS message,
independently of the other columns' validity (the concrete instance carries
an invalid dims code). -/
theorem C5_missing_mandatory :
    (∀ (row : List (String × String)) (st : DigestState) (o : OptName),
      processColumns row initState = .ok st → firstMissing st.vals = some o →
      digest_row row = .error (.runtimeError (o.enumName ++ " is missing from spec."))) ∧
    (∀ (row : List (String × String)) (st : DigestState),
      processColumns row initState = .ok st →
      (dictFind .SHORT_NAME st.vals).isSome = true →
      (dictFind .LONG_NAME st.vals).isSome = true →
      dictFind .UNITS st.vals = none →
      digest_row row = .error (.runtimeError "UNITS is missing from spec.")) ∧
    digest_row [("SHORT_NAME", "x"), ("LONG_NAME", "ln"), ("DIMS", "bogus"),
        ("VLOCATION", "C")] =
      .error (.runtimeError "UNITS is missing from spec.") := by
  have hmo : get_mandatory_options = [.SHORT_NAME, .LONG_NAME, .UNITS, .DIMS] := rfl
  refine ⟨?_, ?_, rfl⟩
  · intro row st o hp hf
    simp [digest_row, hp, checkMandatory, hf]
  · intro row st hp hS hL hU
    obtain ⟨vS, hvS⟩ := Option.isSome_iff_exists.mp hS
    obtain ⟨vL, hvL⟩ := Option.isSome_iff_exists.mp hL
    have hf : firstMissing st.vals = some .UNITS := by
      rw [firstMissing, hmo]
      simp [List.find?, hvS, hvL, hU]
    simp [digest_row, hp, checkMandatory, hf, OptName.enumName]

/-- Witness for C5 at two concrete rows. -/
theorem C5_witness :
    digest_row [("SHORT_NAME", "x")] =
      .error (.runtimeError "LONG_NAME is missing from spec.") ∧
    digest_row [("SHORT_NAME", "x"), ("LONG_NAME", "ln"), ("DIMS", "bogus"),
        ("VLOCATION", "C")] =
      .error (.runtimeError "UNITS is missing from spec.") :=
  ⟨C5_missing_mandatory.1 [("SHORT_NAME", "x")]
    ⟨[(.SHORT_NAME, .vstr "'x'"), (.MANGLED_NAME, .vstr "'x'"),
      (.INTERNAL_NAME, .vstr "x")], .vnone, .vnone⟩ .LONG_NAME rfl rfl,
   C5_missing_mandatory.2.1
    [("SHORT_NAME", "x"), ("LONG_NAME", "ln"), ("DIMS", "bogus"), ("VLOCATION", "C")]
    ⟨[(.SHORT_NAME, .vstr "'x'"), (.MANGLED_NAME, .vstr "'x'"),
      (.INTERNAL_NAME, .vstr "x"), (.LONG_NAME, .vstr "'ln'"),
      (.DIMS, .vnone), (.VLOCATION, .vstr "MAPL_VlocationCenter")], .vnone, .vnone⟩
    rfl rfl rfl rfl⟩

/-! ### Claim C9 -/

/-- C9: the long and short alias spellings of a column (and any case
variant) resolve to the same canonical option, and digesting a row is
invariant under replacing a column name by any alias that resolves to the
same option; the short-name derivation fires for either spelling, as the
concrete NAME-spelled row shows. -/
theorem C9_alias_equivalence :
    (optionOfColumn "NAME" = some .SHORT_NAME ∧
     optionOfColumn "SHORT_NAME" = some .SHORT_NAME ∧
     optionOfColumn "name" = some .SHORT_NAME ∧
     optionOfColumn "VLOC" = some .VLOCATION ∧
     optionOfColumn "VLOCATION" = some .VLOCATION ∧
     optionOfColumn "UNGRID" = some .UNGRIDDED ∧
     optionOfColumn "UNGRIDDED" = some .UNGRIDDED) ∧
    (∀ (pre post : List (String × String)) (c1 c2 cell : String) (o : OptName),
      optionOfColumn c1 = some o → optionOfColumn c2 = some o →
      digest_row (pre ++ (c1, cell) :: post) = digest_row (pre ++ (c2, cell) :: post)) ∧
    digest_row [("NAME", "x"), ("LONG_NAME", "ln"), ("UNITS", "u"),
        ("DIMS", "xy"), ("VLOCATION", "N")] =
      digest_row [("SHORT_NAME", "x"), ("LONG_NAME", "ln"), ("UNITS", "u"),
        ("DIMS", "xy"), ("VLOCATION", "N")] ∧
    digest_row [("NAME", "x"), ("LONG_NAME", "ln"), ("UNITS", "u"),
        ("DIMS", "xy"), ("VLOCATION", "N")] =
      .ok [(.SHORT_NAME, .vstr "'x'"), (.MANGLED_NAME, .vstr "'x'"),
           (.INTERNAL_NAME, .vstr "x"), (.LONG_NAME, .vstr "'ln'"),
           (.UNITS, .vstr "'u'"), (.DIMS, .vstr "MAPL_DimsHorzOnly"),
           (.VLOCATION, .vstr "MAPL_VlocationNone"), (.RANK, .vnat 2)] := by
  refine ⟨⟨rfl, rfl, rfl, rfl, rfl, rfl, rfl⟩, ?_, rfl, rfl⟩
  intro pre post c1 c2 cell o h1 h2
  unfold digest_row
  rw [processColumns_congr c1 c2 o h1 h2 pre post cell initState]

/-- Witness for C9: the general substitution property applied to the NAME /
SHORT_NAME aliases at a concrete row. -/
theorem C9_witness :
    digest_row [("NAME", "x"), ("LONG_NAME", "ln"), ("UNITS", "u"),
        ("DIMS", "xyz"), ("VLOCATION", "E")] =
      digest_row [("SHORT_NAME", "x"), ("LONG_NAME", "ln"), ("UNITS", "u"),
        ("DIMS", "xyz"), ("VLOCATION", "E")] :=
  C9_alias_equivalence.2.1 []
    [("LONG_NAME", "ln"), ("UNITS", "u"), ("DIMS", "xyz"), ("VLOCATION", "E")]
    "NAME" "SHORT_NAME" "x" .SHORT_NAME rfl rfl

/-! ### Claim C1 -/

/-- C1: in a digested record whose dims attribute holds one of the three
recognized long-form tokens (with base rank `br` per `RANKS`), the derived
rank attribute equals the base rank when the ungridded attribute is absent
or null, and the base rank plus the number of comma-separated tokens of the
bracketed ungridded list when it is present. -/
theorem C1_rank_of_digested_record (row : List (String × String)) (rec : SpecRecord)
    (hrow : digest_row row = .ok rec) (d : String) (br : Nat)
    (hdim : dictFind .DIMS rec = some (.vstr d)) (hbr : (d, br) ∈ RANKS) :
    ((dictFind .UNGRIDDED rec = none ∨ dictFind .UNGRIDDED rec = some .vnone) →
      dictFind .RANK rec = some (.vnat br)) ∧
    (∀ inner : String, dictFind .UNGRIDDED rec = some (.vstr ("[" ++ inner ++ "]")) →
      inner.data ≠ [] →
      (∀ y ∈ inner.data.head?, ([']', '['].contains y) = false) →
      (∀ y ∈ inner.data.getLast?, ([']', '['].contains y) = false) →
      dictFind .RANK rec = some (.vnat (br + (inner.data.count ',' + 1)))) := by
  obtain ⟨st, rank, hp, hm, hr, hc, hrec⟩ := digest_row_ok_elim row rec hrow
  have hinv := processColumns_trackInv row initState st hp
    ⟨Or.inr ⟨rfl, rfl⟩, Or.inr ⟨rfl, rfl⟩⟩
  have hRANKrec : dictFind .RANK rec = some (.vnat rank) := by
    rw [hrec]
    exact dictFind_insert_self _ _ _
  have hDIMSst : dictFind .DIMS st.vals = some (.vstr d) := by
    rw [hrec, dictFind_insert_ne _ _ _ _ (by decide)] at hdim
    exact hdim
  have hdims_track : st.dims = .vstr d := by
    rcases hinv.1 with h | ⟨hn, _⟩
    · rw [hDIMSst] at h
      exact (Option.some.inj h).symm
    · rw [hn] at hDIMSst
      cases hDIMSst
  have hlookup : lookupStr RANKS d = some br := by
    simp only [RANKS, DIMS_OPTIONS, List.map_cons, List.map_nil, List.mem_cons,
      List.not_mem_nil, or_false, Prod.mk.injEq] at hbr
    rcases hbr with ⟨rfl, rfl⟩ | ⟨rfl, rfl⟩ | ⟨rfl, rfl⟩ <;> rfl
  constructor
  · intro hung
    have hUNGrec : dictFind .UNGRIDDED rec = dictFind .UNGRIDDED st.vals := by
      rw [hrec, dictFind_insert_ne _ _ _ _ (by decide)]
    have htrack : st.ungridded = .vnone := by
      rcases hinv.2 with h | ⟨hn, he⟩
      · rw [hUNGrec, h] at hung
        rcases hung with h2 | h2
        · cases h2
        · exact Option.some.inj h2
      · exact he
    rw [hdims_track, htrack] at hr
    rw [show compute_rank (.vstr d) .vnone = .ok br by
      simp [compute_rank, Value.truthy, hlookup]] at hr
    have hbr2 : br = rank := Except.ok.inj hr
    rw [hRANKrec, ← hbr2]
  · intro inner hung hne hh hl
    have hUNGst : dictFind .UNGRIDDED st.vals = some (.vstr ("[" ++ inner ++ "]")) := by
      rw [hrec, dictFind_insert_ne _ _ _ _ (by decide)] at hung
      exact hung
    have htrack : st.ungridded = .vstr ("[" ++ inner ++ "]") := by
      rcases hinv.2 with h | ⟨hn, _⟩
      · rw [hUNGst] at h
        exact (Option.some.inj h).symm
      · rw [hn] at hUNGst
        cases hUNGst
    have hdata : ("[" ++ inner ++ "]").data = '[' :: (inner.data ++ [']']) := by
      simp [String.data_append]
    have hstrip : stripWhile (([']', '['].contains ·)) ("[" ++ inner ++ "]").data
        = inner.data := by
      rw [hdata]
      exact stripWhile_wrap _ (by decide) (by decide) inner.data hne hh hl
    have htru : (Value.vstr ("[" ++ inner ++ "]")).truthy = true := by
      simp [Value.truthy, hdata]
    rw [hdims_track, htrack] at hr
    have hcr : compute_rank (.vstr d) (.vstr ("[" ++ inner ++ "]")) =
        .ok (br + (inner.data.count ',' + 1)) := by
      simp only [compute_rank, htru, if_true, Value.pyStr, pyStripChars, hstrip,
        splitCommas_length, hlookup]
    have heq : br + (inner.data.count ',' + 1) = rank := Except.ok.inj (hcr.symm.trans hr)
    rw [hRANKrec, ← heq]

/-- Witness for C1 at a digested vertical-only record with two ungridded
tokens, and a digested horizontal+vertical record without ungridded. -/
theorem C1_witness :
    digest_row [("SHORT_NAME", "x"), ("LONG_NAME", "ln"), ("UNITS", "u"),
        ("DIMS", "z"), ("VLOCATION", "C"), ("UNGRIDDED", "a,b")] =
      .ok [(.SHORT_NAME, .vstr "'x'"), (.MANGLED_NAME, .vstr "'x'"),
           (.INTERNAL_NAME, .vstr "x"), (.LONG_NAME, .vstr "'ln'"),
           (.UNITS, .vstr "'u'"), (.DIMS, .vstr "MAPL_DimsVertOnly"),
           (.VLOCATION, .vstr "MAPL_VlocationCenter"),
           (.UNGRIDDED, .vstr "[a,b]"), (.RANK, .vnat 3)] ∧
    dictFind .RANK
      [(.SHORT_NAME, .vstr "'x'"), (.MANGLED_NAME, .vstr "'x'"),
       (.INTERNAL_NAME, .vstr "x"), (.LONG_NAME, .vstr "'ln'"),
       (.UNITS, .vstr "'u'"), (.DIMS, .vstr "MAPL_DimsVertOnly"),
       (.VLOCATION, .vstr "MAPL_VlocationCenter"),
       (.UNGRIDDED, .vstr "[a,b]"), (.RANK, .vnat 3)] =
      some (.vnat (1 + (("a,b" : String).data.count ',' + 1))) ∧
    dictFind .RANK
      [(.SHORT_NAME, .vstr "'q'"), (.MANGLED_NAME, .vstr "'q'"),
       (.INTERNAL_NAME, .vstr "q"), (.LONG_NAME, .vstr "'l'"),
       (.UNITS, .vstr "'u'"), (.DIMS, .vstr "MAPL_DimsHorzVert"),
       (.VLOCATION, .vstr "MAPL_VlocationEdge"), (.RANK, .vnat 3)] =
      some (.vnat 3) := by
  refine ⟨rfl, ?_, ?_⟩
  · exact (C1_rank_of_digested_record
      [("SHORT_NAME", "x"), ("LONG_NAME", "ln"), ("UNITS", "u"),
       ("DIMS", "z"), ("VLOCATION", "C"), ("UNGRIDDED", "a,b")]
      [(.SHORT_NAME, .vstr "'x'"), (.MANGLED_NAME, .vstr "'x'"),
       (.INTERNAL_NAME, .vstr "x"), (.LONG_NAME, .vstr "'ln'"),
       (.UNITS, .vstr "'u'"), (.DIMS, .vstr "MAPL_DimsVertOnly"),
       (.VLOCATION, .vstr "MAPL_VlocationCenter"),
       (.UNGRIDDED, .vstr "[a,b]"), (.RANK, .vnat 3)]
      rfl "MAPL_DimsVertOnly" 1 rfl (by decide)).2
      "a,b" rfl (by decide) (by decide) (by decide)
  · exact (C1_rank_of_digested_record
      [("SHORT_NAME", "q"), ("LONG_NAME", "l"), ("UNITS", "u"),
       ("DIMS", "xyz"), ("VLOCATION", "E")]
      [(.SHORT_NAME, .vstr "'q'"), (.MANGLED_NAME, .vstr "'q'"),
       (.INTERNAL_NAME, .vstr "q"), (.LONG_NAME, .vstr "'l'"),
       (.UNITS, .vstr "'u'"), (.DIMS, .vstr "MAPL_DimsHorzVert"),
       (.VLOCATION, .vstr "MAPL_VlocationEdge"), (.RANK, .vnat 3)]
      rfl "MAPL_DimsHorzVert" 3 rfl (by decide)).1 (Or.inl rfl)

end ACG
